import Mathlib

/-!
Verification of the dividend-screener core pipeline
(valuation engine, signal classifier, filter & preset engine,
market-data fetch batching), shallowly embedded from the Python source.

Numeric pandas/numpy values are modelled as `Option ℚ`: `none` stands for
NaN / missing, `some x` for a defined float.  Pandas comparison semantics
(`NaN cmp x = False`) are captured by the `vge`/`vgt`/`vle`/`vlt` helpers.
-/

namespace DividendScreener

/-- A pandas numeric cell: `none` is NaN/missing. -/
abbrev Val := Option ℚ

/-- `a >= q` with pandas NaN semantics (NaN compares false). -/
def vge (a : Val) (q : ℚ) : Bool :=
  match a with
  | some x => decide (q ≤ x)
  | none => false

/-- `a > q` with pandas NaN semantics. -/
def vgt (a : Val) (q : ℚ) : Bool :=
  match a with
  | some x => decide (q < x)
  | none => false

/-- `a <= q` with pandas NaN semantics. -/
def vle (a : Val) (q : ℚ) : Bool :=
  match a with
  | some x => decide (x ≤ q)
  | none => false

/-- `a < q` with pandas NaN semantics. -/
def vlt (a : Val) (q : ℚ) : Bool :=
  match a with
  | some x => decide (x < q)
  | none => false

/-! Signal thresholds from `src/config.py` (`THRESHOLDS`). -/

def MIN_YIELD : ℚ := 8/100
def MIN_ROE_BASIC : ℚ := 8
def EXCEPTIONAL_YIELD : ℚ := 10/100
def HIGH_DISCOUNT : ℚ := 20/100
def EXCELLENT_ROE : ℚ := 15
def GOOD_ROE : ℚ := 10
def FAIR_DISCOUNT : ℚ := 5/100
def GOOD_DISCOUNT : ℚ := 15/100
def GRAHAM_MULTIPLIER : ℚ := 45/2

/-- The five signal labels (`src/config.py`, `SIGNAL_OPTIONS`). -/
def SIGNAL_OPTIONS : List String :=
  ["STRONG BUY", "BUY", "ACCUMULATE", "WAIT", "WAIT FOR DIP"]

/-- Scalar signal classifier, from `assign_signal` in `src/models/signals.py`
(lines 77-114): the NaN guard returns WAIT first; then the yield floor,
the overvaluation check, the low-ROE branch with its exceptional-yield
exception, and finally the graded buy levels. -/
def assign_signal (discount div_yield roe : Val) : String :=
  match discount, div_yield, roe with
  | some d, some y, some r =>
    if y < MIN_YIELD then "WAIT"
    else if d < 0 then "WAIT FOR DIP"
    else if r < MIN_ROE_BASIC then
      if EXCEPTIONAL_YIELD ≤ y ∧ HIGH_DISCOUNT ≤ d then "ACCUMULATE" else "WAIT"
    else if HIGH_DISCOUNT ≤ d ∧ EXCELLENT_ROE ≤ r then "STRONG BUY"
    else if GOOD_DISCOUNT ≤ d ∧ GOOD_ROE ≤ r then "BUY"
    else if FAIR_DISCOUNT ≤ d then "ACCUMULATE"
    else "WAIT"
  | _, _, _ => "WAIT"

/-- The first-match decision procedure exactly as spec §4.2 words it
(the spec-side definition for the refinement claim): numbered steps,
first match wins, literal numeric thresholds. -/
def specSignal (discount div_yield roe : Val) : String :=
  if discount = none ∨ div_yield = none ∨ roe = none then "WAIT"
  else
    let d := discount.getD 0
    let y := div_yield.getD 0
    let r := roe.getD 0
    if y < 8/100 then "WAIT"
    else if d < 0 then "WAIT FOR DIP"
    else if r < 8 then
      if y ≥ 10/100 ∧ d ≥ 20/100 then "ACCUMULATE" else "WAIT"
    else if d ≥ 20/100 ∧ r ≥ 15 then "STRONG BUY"
    else if d ≥ 15/100 ∧ r ≥ 10 then "BUY"
    else if d ≥ 5/100 then "ACCUMULATE"
    else "WAIT"

lemma assign_signal_eq_spec (discount div_yield roe : Val) :
    assign_signal discount div_yield roe = specSignal discount div_yield roe := by
  rcases discount with _ | d <;> rcases div_yield with _ | y <;> rcases roe with _ | r <;>
    simp [assign_signal, specSignal, MIN_YIELD, MIN_ROE_BASIC,
      EXCEPTIONAL_YIELD, HIGH_DISCOUNT, EXCELLENT_ROE, GOOD_ROE, FAIR_DISCOUNT,
      GOOD_DISCOUNT, ge_iff_le]

lemma assign_signal_mem (discount div_yield roe : Val) :
    assign_signal discount div_yield roe ∈ SIGNAL_OPTIONS := by
  rcases discount with _ | d <;> rcases div_yield with _ | y <;> rcases roe with _ | r <;>
    simp only [assign_signal, SIGNAL_OPTIONS] <;>
    first
    | (split_ifs <;> simp)
    | simp

/-- C1 -- The scalar classifier is total over all triples (NaN included),
always returns one of the five labels, and agrees with the spec §4.2
first-match decision procedure at every input. -/
theorem assign_signal_matches_spec (discount div_yield roe : Val) :
    assign_signal discount div_yield roe = specSignal discount div_yield roe ∧
    assign_signal discount div_yield roe ∈ SIGNAL_OPTIONS :=
  ⟨assign_signal_eq_spec discount div_yield roe, assign_signal_mem discount div_yield roe⟩

/-- One element of the masked-overwrite cascade of
`assign_signals_vectorized` (`src/models/signals.py` lines 39-74): the
series starts at "WAIT" and each `where` overwrites the rows whose mask
holds, using pandas comparison semantics (NaN compares false). -/
def assign_signal_vec (discount div_yield roe : Val) : String :=
  let valid := discount.isSome && div_yield.isSome && roe.isSome
  let yield_ok := vge div_yield MIN_YIELD
  let overvalued := vlt discount 0
  let s0 := "WAIT"
  let s1 := if valid && overvalued && yield_ok then "WAIT FOR DIP" else s0
  let strong_buy := vge discount HIGH_DISCOUNT && vge roe EXCELLENT_ROE && yield_ok
  let s2 := if valid && strong_buy then "STRONG BUY" else s1
  let buy := vge discount GOOD_DISCOUNT && vge roe GOOD_ROE && yield_ok && !strong_buy
  let s3 := if valid && buy then "BUY" else s2
  let roe_basic := vge roe MIN_ROE_BASIC
  let exceptional := vge div_yield EXCEPTIONAL_YIELD && vge discount HIGH_DISCOUNT
  let accumulate :=
    ((vge discount FAIR_DISCOUNT && roe_basic && yield_ok) || (exceptional && yield_ok))
      && !strong_buy && !buy
  if valid && accumulate then "ACCUMULATE" else s3

/-- The batch classifier: the series operations of
`assign_signals_vectorized` act row-wise, so the whole function is the
element map of `assign_signal_vec` over the collection. -/
def assign_signals_vectorized (rows : List (Val × Val × Val)) : List String :=
  rows.map (fun t => assign_signal_vec t.1 t.2.1 t.2.2)

lemma assign_signal_vec_eq_some (d y r : ℚ) :
    assign_signal_vec (some d) (some y) (some r) =
      assign_signal (some d) (some y) (some r) := by
  by_cases hy : MIN_YIELD ≤ y
  · have hy' : ¬ y < MIN_YIELD := not_lt.mpr hy
    by_cases hov : d < 0
    · have h1 : ¬ HIGH_DISCOUNT ≤ d := by simp only [HIGH_DISCOUNT]; linarith
      have h2 : ¬ GOOD_DISCOUNT ≤ d := by simp only [GOOD_DISCOUNT]; linarith
      have h3 : ¬ FAIR_DISCOUNT ≤ d := by simp only [FAIR_DISCOUNT]; linarith
      simp [assign_signal_vec, assign_signal, vge, vlt, hy, hy', hov, h1, h2, h3]
    · by_cases hr : MIN_ROE_BASIC ≤ r
      · by_cases hsb : HIGH_DISCOUNT ≤ d ∧ EXCELLENT_ROE ≤ r
        · simp [assign_signal_vec, assign_signal, vge, vlt, hy, hy', hov, hr,
            not_lt.mpr hr, hsb, hsb.1, hsb.2]
        · rcases not_and_or.mp hsb with h | h <;>
          · by_cases hbuy : GOOD_DISCOUNT ≤ d ∧ GOOD_ROE ≤ r
            · simp [assign_signal_vec, assign_signal, vge, vlt, hy, hy', hov, hr,
                not_lt.mpr hr, hsb, hbuy, hbuy.1, hbuy.2, h]
            · rcases not_and_or.mp hbuy with hb | hb <;>
              · by_cases hfair : FAIR_DISCOUNT ≤ d
                · simp [assign_signal_vec, assign_signal, vge, vlt, hy, hy', hov, hr,
                    not_lt.mpr hr, hsb, hbuy, hfair, h, hb]
                · have hHD : ¬ HIGH_DISCOUNT ≤ d := by
                    simp only [FAIR_DISCOUNT] at hfair
                    simp only [HIGH_DISCOUNT]; linarith
                  have hGD : ¬ GOOD_DISCOUNT ≤ d := by
                    simp only [FAIR_DISCOUNT] at hfair
                    simp only [GOOD_DISCOUNT]; linarith
                  simp [assign_signal_vec, assign_signal, vge, vlt, hy, hy', hov, hr,
                    not_lt.mpr hr, hsb, hbuy, hfair, h, hb, hHD, hGD]
      · have hr' : r < MIN_ROE_BASIC := not_le.mp hr
        have h4 : ¬ EXCELLENT_ROE ≤ r := by
          simp only [MIN_ROE_BASIC] at hr'
          simp only [EXCELLENT_ROE]; linarith
        have h5 : ¬ GOOD_ROE ≤ r := by
          simp only [MIN_ROE_BASIC] at hr'
          simp only [GOOD_ROE]; linarith
        by_cases hex : EXCEPTIONAL_YIELD ≤ y ∧ HIGH_DISCOUNT ≤ d
        · simp [assign_signal_vec, assign_signal, vge, vlt, hy, hy', hov, hr, hr',
            h4, h5, hex, hex.1, hex.2]
        · rcases not_and_or.mp hex with hx | hx <;>
            simp [assign_signal_vec, assign_signal, vge, vlt, hy, hy', hov, hr, hr',
              h4, h5, hex, hx]
  · have hy' : y < MIN_YIELD := not_le.mp hy
    simp [assign_signal_vec, assign_signal, vge, vlt, hy, hy']

lemma assign_signal_vec_eq (discount div_yield roe : Val) :
    assign_signal_vec discount div_yield roe = assign_signal discount div_yield roe := by
  rcases discount with _ | d <;> rcases div_yield with _ | y <;> rcases roe with _ | r
  case some.some.some => exact assign_signal_vec_eq_some d y r
  all_goals simp [assign_signal_vec, assign_signal, vge, vlt]

/-- C2 -- The vectorized classifier agrees row-for-row with the scalar
classifier on every collection of triples, NaN members included. -/
theorem assign_signals_vectorized_eq_scalar (rows : List (Val × Val × Val)) :
    assign_signals_vectorized rows =
      rows.map (fun t => assign_signal t.1 t.2.1 t.2.2) := by
  unfold assign_signals_vectorized
  exact List.map_congr_left (fun t _ => assign_signal_vec_eq t.1 t.2.1 t.2.2)

/-- C4 -- For fully defined triples, WAIT FOR DIP is returned exactly when
the yield floor passes and the discount is negative: the yield floor is
checked first, so an overvalued low-yield instrument is WAIT; the two
concrete spec examples evaluate as stated. -/
theorem wait_for_dip_iff_yield_and_overvalued (d y r : ℚ) :
    (assign_signal (some d) (some y) (some r) = "WAIT FOR DIP" ↔ 8/100 ≤ y ∧ d < 0) ∧
    assign_signal (some (-5/100)) (some (9/100)) (some 12) = "WAIT FOR DIP" ∧
    assign_signal (some (-5/100)) (some (3/100)) (some 12) = "WAIT" := by
  refine ⟨⟨fun h => ?_, fun h => ?_⟩, ?_, ?_⟩
  · by_cases hy : y < MIN_YIELD
    · simp [assign_signal, hy] at h
    · by_cases hd : d < 0
      · refine ⟨?_, hd⟩
        simp only [MIN_YIELD] at hy
        exact not_lt.mp hy
      · simp only [assign_signal, if_neg hy, if_neg hd] at h
        split_ifs at h <;> simp_all
  · have hy : ¬ y < MIN_YIELD := by
      simp only [MIN_YIELD]
      exact not_lt.mpr h.1
    simp [assign_signal, hy, h.2]
  · norm_num [assign_signal, MIN_YIELD, MIN_ROE_BASIC, EXCEPTIONAL_YIELD, HIGH_DISCOUNT,
      EXCELLENT_ROE, GOOD_ROE, FAIR_DISCOUNT, GOOD_DISCOUNT]
  · norm_num [assign_signal, MIN_YIELD, MIN_ROE_BASIC, EXCEPTIONAL_YIELD, HIGH_DISCOUNT,
      EXCELLENT_ROE, GOOD_ROE, FAIR_DISCOUNT, GOOD_DISCOUNT]

/-! ### Valuation engine (`src/models/signals.py`, `process_dataframe`)

`np.sqrt` is an external numeric routine; the embedding abstracts it as a
function argument `sqrt : ℚ → ℚ`, so every theorem below holds for any
square-root routine, and the claims about branch structure are exact. -/

/-- Scalar Graham fair value, from `compute_fair_value`
(`src/models/signals.py` lines 23-36): NaN when BVPS/EPS is missing or
not strictly positive, else `sqrt(22.5 * bvps * eps)`. -/
def compute_fair_value (sqrt : ℚ → ℚ) (bvps eps : Val) : Val :=
  match bvps, eps with
  | some b, some e =>
    if b ≤ 0 ∨ e ≤ 0 then none
    else some (sqrt (GRAHAM_MULTIPLIER * b * e))
  | _, _ => none

/-- Vectorized Graham fair value, from `compute_fair_value_vectorized`
(lines 10-20): `sqrt(22.5 * bvps.fillna(0) * eps.fillna(0))`, then masked
to NaN where not (`bvps > 0` and `eps > 0`) with pandas NaN-compares-false
semantics. -/
def compute_fair_value_vectorized (sqrt : ℚ → ℚ) (bvps eps : Val) : Val :=
  if vgt bvps 0 && vgt eps 0 then
    some (sqrt (GRAHAM_MULTIPLIER * bvps.getD 0 * eps.getD 0))
  else none

/-- The `FairValue` selection in `process_dataframe` (lines 134-148):
`np.where(manual.notna() & (manual > 0), manual, graham)`. -/
def fairValue (sqrt : ℚ → ℚ) (bvps eps manual : Val) : Val :=
  if manual.isSome && vgt manual 0 then manual
  else compute_fair_value_vectorized sqrt bvps eps

/-- The fair-value rule exactly as the spec words it (spec-side definition
for the refinement claim): the override wins when present and positive;
else Graham when both inputs are strictly positive; else undefined. -/
def fairValueSpec (sqrt : ℚ → ℚ) (bvps eps manual : Val) : Val :=
  match manual with
  | some m =>
    if 0 < m then some m
    else match bvps, eps with
      | some b, some e => if 0 < b ∧ 0 < e then some (sqrt (45/2 * b * e)) else none
      | _, _ => none
  | none =>
    match bvps, eps with
    | some b, some e => if 0 < b ∧ 0 < e then some (sqrt (45/2 * b * e)) else none
    | _, _ => none

/-- C3 -- FairValue equals the manual override whenever it is present and
positive, and otherwise equals `sqrt(22.5*bvps*eps)` exactly when both
BVPS and EPS are defined and strictly positive (NaN in every other case);
the scalar and vectorized Graham computations agree, and being total
functions they raise no error. -/
theorem fairValue_matches_spec (sqrt : ℚ → ℚ) (bvps eps manual : Val) :
    fairValue sqrt bvps eps manual = fairValueSpec sqrt bvps eps manual ∧
    compute_fair_value sqrt bvps eps = compute_fair_value_vectorized sqrt bvps eps := by
  constructor
  · rcases manual with _ | m <;>
      rcases bvps with _ | b <;> rcases eps with _ | e <;>
      simp only [fairValue, fairValueSpec, compute_fair_value_vectorized, vgt,
        GRAHAM_MULTIPLIER, Option.isSome_none, Option.isSome_some, Option.getD,
        Bool.false_and, Bool.true_and, Bool.and_eq_true, decide_eq_true_eq] <;>
      split_ifs <;> simp_all
  · rcases bvps with _ | b <;> rcases eps with _ | e
    · simp [compute_fair_value, compute_fair_value_vectorized, vgt]
    · simp [compute_fair_value, compute_fair_value_vectorized, vgt]
    · simp [compute_fair_value, compute_fair_value_vectorized, vgt]
    · by_cases hb : 0 < b
      · by_cases he : 0 < e
        · simp [compute_fair_value, compute_fair_value_vectorized, vgt, hb, he,
            not_le.mpr hb, not_le.mpr he]
        · simp [compute_fair_value, compute_fair_value_vectorized, vgt, he, not_lt.mp he]
      · simp [compute_fair_value, compute_fair_value_vectorized, vgt, hb, not_lt.mp hb]

/-! ### Derived Discount and DivYield (`process_dataframe`, lines 150-165) -/

/-- `df['Discount'] = np.where((FairValue > 0) & (CurrentPrice > 0),
(FairValue - CurrentPrice) / FairValue, nan)`, with pandas
NaN-compares-false semantics. -/
def computeDiscount (fairV price : Val) : Val :=
  if vgt fairV 0 && vgt price 0 then
    some ((fairV.getD 0 - price.getD 0) / fairV.getD 0)
  else none

/-- `df['DivYield'] = np.where(CurrentPrice > 0, DivTTM / CurrentPrice,
nan)`; a NaN DivTTM propagates through the division. -/
def computeDivYield (divTTM price : Val) : Val :=
  if vgt price 0 then
    match divTTM with
    | some dv => some (dv / price.getD 0)
    | none => none
  else none

/-- A cell is defined and strictly positive. -/
def posVal (a : Val) : Prop := ∃ x, a = some x ∧ 0 < x

lemma vgt_zero_eq_false (a : Val) (h : ¬ posVal a) : vgt a 0 = false := by
  rcases a with _ | x
  · rfl
  · have hx : ¬ 0 < x := fun hx => h ⟨x, rfl, hx⟩
    simp [vgt, hx]

/-- C5 -- Discount is NaN whenever FairValue or CurrentPrice is not
strictly positive and equals `(FairValue - CurrentPrice) / FairValue`
otherwise; DivYield is NaN whenever CurrentPrice is not strictly positive
and equals `DivTTM / CurrentPrice` otherwise; both are total (guarded
division never fails), and an undefined Discount or DivYield propagates
to the WAIT signal. -/
theorem discount_divyield_guarded (fairV price divTTM : Val) :
    (¬ posVal fairV ∨ ¬ posVal price → computeDiscount fairV price = none) ∧
    (∀ f p, fairV = some f → price = some p → 0 < f → 0 < p →
      computeDiscount fairV price = some ((f - p) / f)) ∧
    (¬ posVal price → computeDivYield divTTM price = none) ∧
    (∀ dv p, divTTM = some dv → price = some p → 0 < p →
      computeDivYield divTTM price = some (dv / p)) ∧
    (computeDiscount fairV price = none →
      ∀ y r, assign_signal (computeDiscount fairV price) y r = "WAIT") ∧
    (computeDivYield divTTM price = none →
      ∀ d r, assign_signal d (computeDivYield divTTM price) r = "WAIT") := by
  refine ⟨?_, ?_, ?_, ?_, ?_, ?_⟩
  · intro h
    rcases h with h | h
    · simp [computeDiscount, vgt_zero_eq_false _ h]
    · simp [computeDiscount, vgt_zero_eq_false _ h]
  · rintro f p rfl rfl hf hp
    simp [computeDiscount, vgt, hf, hp]
  · intro h
    simp [computeDivYield, vgt_zero_eq_false _ h]
  · rintro dv p rfl rfl hp
    simp [computeDivYield, vgt, hp]
  · intro h y r
    rw [h]
    rcases y with _ | yy <;> rcases r with _ | rr <;> rfl
  · intro h d r
    rw [h]
    rcases d with _ | dd <;> rcases r with _ | rr <;> rfl

/-- C4 witness: the theorem instantiated at a concrete overvalued,
yield-qualifying triple. -/
theorem wait_for_dip_iff_witness :
    assign_signal (some (-(1:ℚ)/10)) (some (9/100)) (some 12) = "WAIT FOR DIP" :=
  (wait_for_dip_iff_yield_and_overvalued (-(1:ℚ)/10) (9/100) 12).1.mpr
    ⟨by norm_num, by norm_num⟩

/-- C5 witness: the guards evaluated at concrete defined and undefined
inputs. -/
theorem discount_divyield_guarded_witness :
    computeDiscount none (some 5) = none ∧
    computeDiscount (some 100) (some 80) = some ((100 - 80) / 100) ∧
    computeDivYield (some 8) (some 100) = some (8 / 100) ∧
    assign_signal (computeDiscount none (some 5)) (some (9/100)) (some 12) = "WAIT" := by
  have h1 := (discount_divyield_guarded none (some 5) (some 8)).1
    (Or.inl (by simp [posVal]))
  refine ⟨h1, ?_, ?_, ?_⟩
  · exact (discount_divyield_guarded (some 100) (some 80) (some 8)).2.1 100 80 rfl rfl
      (by norm_num) (by norm_num)
  · exact (discount_divyield_guarded (some 100) (some 100) (some 8)).2.2.2.1 8 100 rfl rfl
      (by norm_num)
  · exact (discount_divyield_guarded none (some 5) (some 8)).2.2.2.2.1 h1
      (some (9/100)) (some 12)

/-! ### Filter & preset engine (`src/models/filters.py`, `src/config.py`) -/

/-- One processed row, with the fields `apply_filters` reads. -/
structure Row where
  Ticker : String
  Signal : String
  Sector : String
  Discount : Val
  DivYield : Val
  ROE : Val
  DPR : Val
deriving DecidableEq

/-- The six-field filter state (`filters` dict in `apply_filters`; the
`filter_*` keys of the session state). -/
structure FilterState where
  signals : List String
  sectors : List String
  discount_min : ℚ
  yield_min : ℚ
  roe_min : ℚ
  dpr_max : ℚ
deriving DecidableEq

/-- The numeric clauses of `apply_filters` (lines 39-70): each threshold
contributes a `query` conjunct only when active (`discount_min > 0`,
`yield_min > 0`, `roe_min > 0`, `dpr_max < 1000`); pandas `query`
comparisons are NaN-compares-false.  An empty conjunct list means the
`query` step is skipped, which coincides with an all-true predicate. -/
def numericPred (fs : FilterState) (r : Row) : Bool :=
  (if 0 < fs.discount_min then vge r.Discount (fs.discount_min / 100) else true) &&
  (if 0 < fs.yield_min then vge r.DivYield (fs.yield_min / 100) else true) &&
  (if 0 < fs.roe_min then vge r.ROE fs.roe_min else true) &&
  (if fs.dpr_max < 1000 then vle r.DPR fs.dpr_max else true)

/-- `apply_filters` (`src/models/filters.py` lines 8-72): copy, then the
`Signal.isin` filter when `signals` is non-empty, then the `Sector.isin`
filter when `sectors` is non-empty, then the numeric `query`. -/
def apply_filters (df : List Row) (fs : FilterState) : List Row :=
  let f1 := if fs.signals ≠ [] then df.filter (fun r => fs.signals.contains r.Signal) else df
  let f2 := if fs.sectors ≠ [] then f1.filter (fun r => fs.sectors.contains r.Sector) else f1
  f2.filter (numericPred fs)

/-- The conjunction of all active clauses, as spec §4.3 words the filter
state (spec-side predicate for the refinement claim). -/
def rowMatches (fs : FilterState) (r : Row) : Bool :=
  (fs.signals.isEmpty || fs.signals.contains r.Signal) &&
  (fs.sectors.isEmpty || fs.sectors.contains r.Sector) &&
  numericPred fs r

lemma apply_filters_eq_filter (df : List Row) (fs : FilterState) :
    apply_filters df fs = df.filter (rowMatches fs) := by
  unfold apply_filters rowMatches
  rcases hsig : fs.signals with _ | ⟨s, ss⟩ <;>
    rcases hsec : fs.sectors with _ | ⟨c, cs⟩ <;>
    simp [List.filter_filter, Bool.and_comm, Bool.and_assoc, Bool.and_left_comm]

/-- C6 -- `apply_filters` returns exactly the rows satisfying the
conjunction of all active clauses, as an order-preserving subsequence of
the input; it is a pure total function (no mutation, no exception). -/
theorem apply_filters_conjunction (df : List Row) (fs : FilterState) :
    apply_filters df fs = df.filter (rowMatches fs) ∧
    (apply_filters df fs).Sublist df :=
  ⟨apply_filters_eq_filter df fs,
   apply_filters_eq_filter df fs ▸ List.filter_sublist df⟩

/-- C8 -- `apply_filters` is idempotent: re-filtering an already filtered
collection with the same state returns it unchanged. -/
theorem apply_filters_idempotent (df : List Row) (fs : FilterState) :
    apply_filters (apply_filters df fs) fs = apply_filters df fs := by
  rw [apply_filters_eq_filter df fs, apply_filters_eq_filter, List.filter_filter]
  congr 1
  funext r
  cases rowMatches fs r <;> rfl

/-- C10 -- an undefined (NaN) cell never satisfies an active numeric
clause: a row whose compared field is NaN is dropped whenever the
corresponding threshold is active. -/
theorem nan_excluded_by_active_clause (df : List Row) (fs : FilterState) (r : Row)
    (h : (0 < fs.discount_min ∧ r.Discount = none) ∨
         (0 < fs.yield_min ∧ r.DivYield = none) ∨
         (0 < fs.roe_min ∧ r.ROE = none) ∨
         (fs.dpr_max < 1000 ∧ r.DPR = none)) :
    r ∉ apply_filters df fs := by
  rw [apply_filters_eq_filter]
  intro hmem
  have hp : rowMatches fs r = true := (List.mem_filter.mp hmem).2
  have hnum : numericPred fs r = true := by
    have := hp
    unfold rowMatches at this
    simp only [Bool.and_eq_true] at this
    exact this.2
  unfold numericPred at hnum
  simp only [Bool.and_eq_true] at hnum
  rcases h with ⟨ha, hn⟩ | ⟨ha, hn⟩ | ⟨ha, hn⟩ | ⟨ha, hn⟩
  · have := hnum.1.1.1
    rw [if_pos ha, hn] at this
    exact absurd this (by simp [vge])
  · have := hnum.1.1.2
    rw [if_pos ha, hn] at this
    exact absurd this (by simp [vge])
  · have := hnum.1.2
    rw [if_pos ha, hn] at this
    exact absurd this (by simp [vge])
  · have := hnum.2
    rw [if_pos ha, hn] at this
    exact absurd this (by simp [vle])

/-- C10 witness. -/
theorem nan_excluded_by_active_clause_witness :
    let r : Row := ⟨"AAAA", "WAIT", "Unknown", none, none, none, none⟩
    let fs : FilterState := ⟨[], [], 10, 0, 0, 1000⟩
    r ∉ apply_filters [r] fs :=
  nan_excluded_by_active_clause [⟨"AAAA", "WAIT", "Unknown", none, none, none, none⟩]
    ⟨[], [], 10, 0, 0, 1000⟩ ⟨"AAAA", "WAIT", "Unknown", none, none, none, none⟩
    (Or.inl ⟨by norm_num, rfl⟩)

/-! ### Presets (`src/config.py` `FILTER_PRESETS`,
`src/models/filters.py` `apply_preset` / `_apply_pending_preset`)

Each preset dict in `FILTER_PRESETS` lists exactly the six `filter_*`
keys, so the per-key update loop of `_apply_pending_preset` amounts to a
full `FilterState` replacement; a preset is therefore embedded as a
complete `FilterState` record. -/

def FILTER_PRESETS : List (String × FilterState) :=
  [("High Yield", ⟨["STRONG BUY", "BUY", "ACCUMULATE"], [], 0, 8, 0, 1000⟩),
   ("Value Play", ⟨["STRONG BUY", "BUY"], [], 20, 5, 10, 1000⟩),
   ("Growth Dividend", ⟨["STRONG BUY", "BUY"], [], 0, 5, 15, 1000⟩),
   ("Safe Income", ⟨["STRONG BUY", "BUY", "ACCUMULATE"], [], 0, 5, 10, 1000⟩)]

def lookupPreset (name : String) : Option FilterState :=
  (FILTER_PRESETS.find? (fun p => p.1 = name)).map Prod.snd

/-- The filter-relevant session state: the active filter widgets plus the
`_pending_preset` flag. -/
structure SessionState where
  filters : FilterState
  pending : Option String

/-- `apply_preset` (lines 75-88): only sets the pending flag, and only
for a known preset name. -/
def apply_preset (name : String) (s : SessionState) : SessionState :=
  if name ∈ FILTER_PRESETS.map Prod.fst then { s with pending := some name } else s

/-- `_apply_pending_preset` (lines 91-106): before widgets render, copy
every key of the pending preset into the session state and clear the
flag. -/
def applyPendingPreset (s : SessionState) : SessionState :=
  match s.pending with
  | none => s
  | some n =>
    match lookupPreset n with
    | some p => { filters := p, pending := none }
    | none => { s with pending := none }

/-- C7 -- each built-in preset atomically replaces the whole six-field
filter state with the spec table's bundle (sectors empty, dpr_max at the
1000 sentinel), whatever the prior state was; and applying "Value Play"
then filtering equals filtering with the manually assembled state
`yield_min=5, discount_min=20, roe_min=10, signals={STRONG BUY, BUY}`. -/
theorem presets_replace_whole_state (s : SessionState) (df : List Row) :
    (applyPendingPreset (apply_preset "High Yield" s)).filters =
      ⟨["STRONG BUY", "BUY", "ACCUMULATE"], [], 0, 8, 0, 1000⟩ ∧
    (applyPendingPreset (apply_preset "Value Play" s)).filters =
      ⟨["STRONG BUY", "BUY"], [], 20, 5, 10, 1000⟩ ∧
    (applyPendingPreset (apply_preset "Growth Dividend" s)).filters =
      ⟨["STRONG BUY", "BUY"], [], 0, 5, 15, 1000⟩ ∧
    (applyPendingPreset (apply_preset "Safe Income" s)).filters =
      ⟨["STRONG BUY", "BUY", "ACCUMULATE"], [], 0, 5, 10, 1000⟩ ∧
    apply_filters df (applyPendingPreset (apply_preset "Value Play" s)).filters =
      apply_filters df ⟨["STRONG BUY", "BUY"], [], 20, 5, 10, 1000⟩ := by
  refine ⟨?_, ?_, ?_, ?_, ?_⟩ <;>
    simp [apply_preset, applyPendingPreset, lookupPreset, FILTER_PRESETS]

/-! ### Market-data fetch (`src/data/fetcher.py`)

The Yahoo-Finance client is an external collaborator; its behaviour for
one ticker is embedded as an oracle value: either the guarded fetch body
completes with a candidate price and sector, or an exception escapes the
inner guards and reaches the outer handlers of
`fetch_single_ticker_data`. -/

/-- The exception classes the outer `try` of `fetch_single_ticker_data`
distinguishes (lines 72-87). -/
inductive FetchErr where
  | connection
  | timeout
  | keyErr (field : String)
  | other (msg : String)
deriving DecidableEq

/-- Per-ticker provider behaviour. -/
inductive TickerFetch where
  | returns (price : Val) (sector : String)
  | raises (e : FetchErr)

/-- The per-ticker error string recorded by each outer handler. -/
def errMsg : FetchErr → String
  | .connection => "Network error"
  | .timeout => "Timeout"
  | .keyErr f => "Missing field: " ++ f
  | .other m => m

/-- One fetch result record
(`{"Ticker": ..., "CurrentPrice": ..., "Sector": ..., "Error": ...}`). -/
structure FetchRec where
  Ticker : String
  CurrentPrice : Val
  Sector : String
  Err : Option String
deriving DecidableEq

/-- `fetch_single_ticker_data` (lines 17-87): yfinance missing gives a
degraded record; a completed body validates the price (`<= 0` becomes
NaN) and reports no error; every escaped exception is caught by an outer
handler and degraded to price NaN / sector "Unknown" with the error
recorded. -/
def fetch_single_ticker_data (yfInstalled : Bool) (ticker : String)
    (f : TickerFetch) : FetchRec :=
  if !yfInstalled then
    ⟨ticker, none, "Unknown", some "yfinance not installed"⟩
  else
    match f with
    | .returns price sector =>
      let validated := match price with
        | some v => if v ≤ 0 then none else some v
        | none => none
      ⟨ticker, validated, sector, none⟩
    | .raises e => ⟨ticker, none, "Unknown", some (errMsg e)⟩

/-- `fetch_all_tickers` (lines 90-111): one `fetch_single_ticker_data`
call per ticker, appended in input order. -/
def fetch_all_tickers (yfInstalled : Bool) (tickers : List String)
    (oracle : String → TickerFetch) : List FetchRec :=
  tickers.map (fun t => fetch_single_ticker_data yfInstalled t (oracle t))

lemma fetch_single_ticker_field (y : Bool) (t : String) (f : TickerFetch) :
    (fetch_single_ticker_data y t f).Ticker = t := by
  unfold fetch_single_ticker_data
  split_ifs
  · rfl
  · cases f <;> rfl

/-- C9 -- a failing lookup never aborts the batch: `fetch_all_tickers`
returns exactly one record per input ticker, in input order, for every
provider behaviour; and every failure mode of `fetch_single_ticker_data`
yields a record with price NaN, sector "Unknown" and the error
recorded. -/
theorem fetch_batch_isolates_failures (yfInstalled : Bool) (tickers : List String)
    (oracle : String → TickerFetch) :
    (fetch_all_tickers yfInstalled tickers oracle).map FetchRec.Ticker = tickers ∧
    (∀ t e, fetch_single_ticker_data true t (.raises e) =
      ⟨t, none, "Unknown", some (errMsg e)⟩) ∧
    (∀ t f, fetch_single_ticker_data false t f =
      ⟨t, none, "Unknown", some "yfinance not installed"⟩) := by
  refine ⟨?_, fun t e => rfl, fun t f => rfl⟩
  simp [fetch_all_tickers, List.map_map, Function.comp_def, fetch_single_ticker_field]

end DividendScreener
